import Mathlib

set_option maxRecDepth 8000

/-!
Shallow embedding of mikettle/mikettle.py (class MiKettle): the byte mixers,
the RC4-style stream cipher, the status-frame decoder, the notification
handler, the auth step, and the cache-fill retry loop with its backoff
policy.  Machine bytes are modelled as Nat with explicit wrap-around
(x % 256 for the Python mask x & 0xff); Python exceptions are modelled as
Option (for the decoder) and Except (for the stateful operations); the
external bluepy transport is abstracted into per-attempt outcomes that an
environment function supplies to the retry loop.
-/

/-- Characteristic handle constants from the top of mikettle.py. -/
def _HANDLE_READ_FIRMWARE_VERSION : Nat := 26

def _HANDLE_READ_MANU : Nat := 18

def _HANDLE_READ_NAME : Nat := 20

def _HANDLE_AUTH : Nat := 37

def _HANDLE_STATUS : Nat := 61

/-- MI_ACTION_MAP dictionary: Python dict lookup modelled as a partial map. -/
def MI_ACTION_MAP : Nat → Option String
  | 0 => some "idle"
  | 1 => some "heating"
  | 2 => some "cooling"
  | 3 => some "keeping warm"
  | _ => none

/-- MI_MODE_MAP dictionary. -/
def MI_MODE_MAP : Nat → Option String
  | 255 => some "none"
  | 1 => some "boil"
  | 2 => some "keep warm"
  | _ => none

/-- MI_KW_TYPE_MAP dictionary. -/
def MI_KW_TYPE_MAP : Nat → Option String
  | 0 => some "boil and cool down to set temperature"
  | 1 => some "warm up to set temperature"
  | _ => none

/-- MI_EWU_MAP dictionary (the inverted-looking labels are verbatim from the source). -/
def MI_EWU_MAP : Nat → Option String
  | 0 => some "true"
  | 1 => some "false"
  | _ => none

/-- The dict built by MiKettle._parse_data, as a record of its eight entries. -/
structure KettleStatus where
  action : String
  mode : String
  set_temperature : Nat
  current_temperature : Nat
  keep_warm_type : String
  current_keep_warm_time : Nat
  extended_warm_up : String
  set_keep_warm_time : Nat
deriving Repr, DecidableEq

/-- The Python exceptions the modelled operations can raise. -/
inductive KErr where
  /-- raise Exception of the string Authentication failed in handleNotification -/
  | authenticationFailed
  /-- TypeError from calling the cipher on a None payload -/
  | typeError
  /-- KeyError or IndexError escaping MiKettle._parse_data -/
  | malformedFrame
  /-- raise Exception Could not read ... using handle h from Mi Kettle mac -/
  | missingCharacteristic (handle : Nat) (mac : String)
  /-- raise Exception Could not read data from MiKettle mac -/
  | noData (mac : String)
deriving Repr, DecidableEq

/-- The mutable attributes of a MiKettle instance that the claims concern:
mac and reversed mac, product id, session token, the cache and its
timestamp plus ttl and retry budget, the connection handle (connected
models self dot p being non-None) and the authenticated flag. -/
structure KettleState where
  mac : String
  reversedMac : List Nat
  productId : Nat
  token : List Nat
  cache : Option KettleStatus
  cacheTimeout : Int
  lastRead : Option Int
  retries : Nat
  connected : Bool
  authenticated : Bool
deriving Repr, DecidableEq

/-- Outcome of one fill_cache attempt, abstracting the external bluepy
transport: transportFault is a BTLEInternalError raised inside the try
block; failure is any other exception raised inside the try block;
delivered d means waitForNotifications invoked handleNotification on the
status handle with payload d (none models a None payload); quiet means
waitForNotifications returned without delivering any notification (bluepy
returns False on timeout and the code breaks regardless). -/
inductive AttemptOutcome where
  | delivered (data : Option (List Nat))
  | quiet
  | transportFault
  | failure
deriving Repr, DecidableEq

/-- Result of a fill_cache run: the final state, how many attempts the loop
made, and the list of time dot sleep durations executed (in seconds). -/
structure FillResult where
  state : KettleState
  attempts : Nat
  sleeps : List Nat
deriving Repr, DecidableEq

namespace MiKettle

/-- Python simultaneous swap perm i, perm j = perm j, perm i on a list. -/
def listSwap (l : List Nat) (a b : Nat) : List Nat :=
  let x := l.getD a 0
  let y := l.getD b 0
  (l.set a y).set b x

/-- MiKettle.bytes_to_int: big-endian accumulation of a byte list. -/
def bytes_to_int (bs : List Nat) : Nat :=
  bs.foldl (fun acc b => acc * 256 + b) 0

/-- MiKettle.generateRandomToken: the fixed 12-byte default token. -/
def generateRandomToken : List Nat :=
  [0x01, 0x5C, 0xCB, 0xA8, 0x80, 0x0A, 0xBD, 0xC1, 0x2E, 0xB8, 0xED, 0x82]

/-- MiKettle.mixA: bytes [mac0, mac2, mac5, pid and ff, pid and ff, mac4, mac5, mac1]. -/
def mixA (mac : List Nat) (productID : Nat) : List Nat :=
  [mac.getD 0 0, mac.getD 2 0, mac.getD 5 0, productID % 256, productID % 256,
   mac.getD 4 0, mac.getD 5 0, mac.getD 1 0]

/-- MiKettle.mixB: bytes [mac0, mac2, mac5, pid shr 8 and ff, mac4, mac0, mac5, pid and ff]. -/
def mixB (mac : List Nat) (productID : Nat) : List Nat :=
  [mac.getD 0 0, mac.getD 2 0, mac.getD 5 0, (productID >>> 8) % 256,
   mac.getD 4 0, mac.getD 0 0, mac.getD 5 0, productID % 256]

/-- Loop body of MiKettle._cipherInit: fuel counts the remaining rounds,
perm is the evolving 256-entry table, j the running accumulator and i the
round index; each round does j = (j + perm i + key (i mod len)) mod 256 and
swaps perm i with perm j. -/
def _cipherInitAux (key : List Nat) : Nat → List Nat → Nat → Nat → List Nat
  | 0, perm, _, _ => perm
  | fuel + 1, perm, j, i =>
    let j₂ := (j + perm.getD i 0 + key.getD (i % key.length) 0) % 256
    _cipherInitAux key fuel (listSwap perm i j₂) j₂ (i + 1)

/-- MiKettle._cipherInit: identity table 0..255 then 256 mixing rounds. -/
def _cipherInit (key : List Nat) : List Nat :=
  _cipherInitAux key 256 (List.range 256) 0 0

/-- One iteration of the loop in MiKettle._cipherCrypt on the state
(index1, index2, perm): advance index1, advance index2 by perm index1,
swap, and emit perm applied to the masked sum of the two swapped entries
as the keystream byte. -/
def prgaStep (s : Nat × Nat × List Nat) : (Nat × Nat × List Nat) × Nat :=
  let i1 := (s.1 + 1) % 256
  let i2 := (s.2.1 + s.2.2.getD i1 0) % 256
  let perm := listSwap s.2.2 i1 i2
  ((i1, i2, perm), perm.getD ((perm.getD i1 0 + perm.getD i2 0) % 256) 0)

/-- The output loop of MiKettle._cipherCrypt: each input byte is XORed with
the next keystream byte (the mask and ff on the output byte is the mod 256). -/
def cipherCryptAux : List Nat → Nat × Nat × List Nat → List Nat
  | [], _ => []
  | a :: rest, s => ((a ^^^ (prgaStep s).2) % 256) :: cipherCryptAux rest (prgaStep s).1

/-- MiKettle._cipherCrypt: run the output loop from index1 = index2 = 0. -/
def _cipherCrypt (input : List Nat) (perm : List Nat) : List Nat :=
  cipherCryptAux input (0, 0, perm)

/-- MiKettle.cipher: schedule a fresh permutation from the key, then crypt.
The permutation is built inside this call and consumed by this call only. -/
def cipher (key : List Nat) (input : List Nat) : List Nat :=
  _cipherCrypt input (_cipherInit key)

/-- The keystream the crypt loop would emit, independent of the input bytes. -/
def keystream : Nat → Nat × Nat × List Nat → List Nat
  | 0, _ => []
  | n + 1, s => (prgaStep s).2 :: keystream n (prgaStep s).1

/-- MiKettle._parse_data: each data index is a Python indexing (IndexError
when out of range, modelled by List.get?) and each map application a dict
lookup (KeyError modelled by the Option map); the slice data 7 to 8 never
raises and is drop 7 take 1. -/
def _parse_data (data : List Nat) : Option KettleStatus :=
  (data.get? 0).bind fun b0 =>
  (MI_ACTION_MAP b0).bind fun act =>
  (data.get? 1).bind fun b1 =>
  (MI_MODE_MAP b1).bind fun md =>
  (data.get? 4).bind fun b4 =>
  (data.get? 5).bind fun b5 =>
  (data.get? 6).bind fun b6 =>
  (MI_KW_TYPE_MAP b6).bind fun kw =>
  (data.get? 9).bind fun b9 =>
  (MI_EWU_MAP b9).bind fun ew =>
  (data.get? 10).bind fun b10 =>
  some { action := act, mode := md, set_temperature := b4, current_temperature := b5,
         keep_warm_type := kw,
         current_keep_warm_time := bytes_to_int ((data.drop 7).take 1),
         extended_warm_up := ew, set_keep_warm_time := b10 }

/-- Well-formedness of an 11-byte status frame: the length is exactly 11 and
every enum byte lies in the domain of its lookup table. -/
def wellFormed (data : List Nat) : Bool :=
  data.length == 11 &&
  (MI_ACTION_MAP (data.getD 0 0)).isSome &&
  (MI_MODE_MAP (data.getD 1 0)).isSome &&
  (MI_KW_TYPE_MAP (data.getD 6 0)).isSome &&
  (MI_EWU_MAP (data.getD 9 0)).isSome

/-- MiKettle.handleNotification: dispatch on the handle.  On the auth
handle the device bytes are double-deciphered and compared with the token,
raising on mismatch (a None payload would raise a TypeError inside the
cipher).  On the status handle a None payload returns at once; otherwise
the frame is parsed (errors propagate), the cache replaced, and last_read
stamped with now (the else branch writing the backoff stamp is kept from
the source although cache_available is always true right after a parse).
Unknown handles are only logged. -/
def handleNotification (st : KettleState) (now : Int) (cHandle : Nat)
    (data : Option (List Nat)) : Except KErr KettleState :=
  if cHandle = _HANDLE_AUTH then
    match data with
    | none => Except.error KErr.typeError
    | some d =>
      if cipher (mixB st.reversedMac st.productId)
           (cipher (mixA st.reversedMac st.productId) d) ≠ st.token then
        Except.error KErr.authenticationFailed
      else
        Except.ok st
  else if cHandle = _HANDLE_STATUS then
    match data with
    | none => Except.ok st
    | some d =>
      match _parse_data d with
      | none => Except.error KErr.malformedFrame
      | some s =>
        let st₂ := { st with cache := some s }
        if st₂.cache.isSome then
          Except.ok { st₂ with lastRead := some now }
        else
          Except.ok { st₂ with lastRead := some (now - st.cacheTimeout + 300) }
  else
    Except.ok st

/-- MiKettle.auth, abstracted over the transport: the characteristic writes
and the descriptor write have no effect on the modelled state; response is
the notification payload delivered to the auth handle during the
waitForNotifications call, none meaning no notification arrived (bluepy
then returns False and the code continues).  If the handler raises, the
exception propagates and the authenticated flag is never set; otherwise
the remaining steps run and set it. -/
def auth (st : KettleState) (now : Int) (response : Option (List Nat)) :
    Except KErr KettleState :=
  if st.authenticated then
    Except.ok st
  else
    match response with
    | none => Except.ok { st with authenticated := true }
    | some d =>
      match handleNotification st now _HANDLE_AUTH (some d) with
      | Except.error e => Except.error e
      | Except.ok st₂ => Except.ok { st₂ with authenticated := true }

/-- The retry loop of MiKettle.fill_cache.  The fuel argument is the number
of attempts still available (so the Python test i == retries - 1 is fuel
= 1), i is the attempt index used to query the environment for that
attempt, and outcomes is the abstracted transport behaviour.  A
BTLEInternalError disconnects and clears the authenticated flag when a
connection exists, then retries at once; any other exception sleeps 3
seconds and retries, except on the last attempt where it stamps last_read
with now - cache_timeout + 300 and returns; a completed wait (with or
without a decoded notification) breaks out of the loop.  A delivered
notification whose handler raises is caught by the generic except branch
of the surrounding try. -/
def fillCacheGo (now : Int) (outcomes : Nat → AttemptOutcome) :
    KettleState → Nat → Nat → FillResult
  | st, _, 0 => ⟨st, 0, []⟩
  | st, i, fuel + 1 =>
    match outcomes i with
    | AttemptOutcome.transportFault =>
      let st₂ := if st.connected then
          { st with connected := false, authenticated := false }
        else st
      let r := fillCacheGo now outcomes st₂ (i + 1) fuel
      ⟨r.state, r.attempts + 1, r.sleeps⟩
    | AttemptOutcome.failure =>
      if fuel = 0 then
        ⟨{ st with lastRead := some (now - st.cacheTimeout + 300) }, 1, []⟩
      else
        let r := fillCacheGo now outcomes st (i + 1) fuel
        ⟨r.state, r.attempts + 1, 3 :: r.sleeps⟩
    | AttemptOutcome.quiet =>
      ⟨{ st with connected := true, authenticated := true }, 1, []⟩
    | AttemptOutcome.delivered data =>
      let st₂ := { st with connected := true, authenticated := true }
      match handleNotification st₂ now _HANDLE_STATUS data with
      | Except.ok st₃ => ⟨st₃, 1, []⟩
      | Except.error _ =>
        if fuel = 0 then
          ⟨{ st₂ with lastRead := some (now - st₂.cacheTimeout + 300) }, 1, []⟩
        else
          let r := fillCacheGo now outcomes st₂ (i + 1) fuel
          ⟨r.state, r.attempts + 1, 3 :: r.sleeps⟩

/-- MiKettle.fill_cache: run the retry loop for self.retries attempts. -/
def fill_cache (st : KettleState) (now : Int) (outcomes : Nat → AttemptOutcome) :
    FillResult :=
  fillCacheGo now outcomes st 0 st.retries

/-- MiKettle.cache_available. -/
def cache_available (st : KettleState) : Bool :=
  st.cache.isSome

/-- MiKettle.clear_cache. -/
def clear_cache (st : KettleState) : KettleState :=
  { st with cache := none, lastRead := none }

/-- The staleness test of MiKettle.parameter_value: refill when read_cached
is false, no previous read exists, or now minus the timeout exceeds the
last read stamp. -/
def isStale (st : KettleState) (now : Int) (read_cached : Bool) : Bool :=
  if read_cached = false then
    true
  else
    match st.lastRead with
    | none => true
    | some t => decide (now - st.cacheTimeout > t)

/-- The tail of MiKettle.parameter_value after the lock block: if
cache_available, serve the snapshot, else raise the no-data error naming
the device. -/
def serveCache (r : FillResult) : KettleState × Nat × Except KErr KettleStatus :=
  match r.state.cache with
  | some c => (r.state, r.attempts, Except.ok c)
  | none => (r.state, r.attempts, Except.error (KErr.noData r.state.mac))

/-- MiKettle.parameter_value: under the lock, refill the cache when stale;
then serve the snapshot if one is available, else raise the no-data error
naming the device.  Returns the final state, the number of transport fill
attempts performed, and the served snapshot or error. -/
def parameter_value (st : KettleState) (now : Int)
    (outcomes : Nat → AttemptOutcome) (read_cached : Bool) :
    KettleState × Nat × Except KErr KettleStatus :=
  serveCache (if isStale st now read_cached then fill_cache st now outcomes
              else ⟨st, 0, []⟩)

/-- The join of chr over a byte sequence in the characteristic readers. -/
def chrJoin (bs : List Nat) : String :=
  String.mk (bs.map Char.ofNat)

/-- MiKettle.name, abstracted over readCharacteristic: an empty read raises
the missing-characteristic error naming _HANDLE_READ_NAME and the mac. -/
def name (st : KettleState) (read : Nat → List Nat) : Except KErr String :=
  let nm := read _HANDLE_READ_NAME
  if nm = [] then
    Except.error (KErr.missingCharacteristic _HANDLE_READ_NAME st.mac)
  else
    Except.ok (chrJoin nm)

/-- MiKettle.manufacturer: reads _HANDLE_READ_MANU, but the error message
of the source (line 121) interpolates _HANDLE_READ_NAME, reproduced here
verbatim. -/
def manufacturer (st : KettleState) (read : Nat → List Nat) : Except KErr String :=
  let nm := read _HANDLE_READ_MANU
  if nm = [] then
    Except.error (KErr.missingCharacteristic _HANDLE_READ_NAME st.mac)
  else
    Except.ok (chrJoin nm)

/-- MiKettle.firmware_version: reads and reports _HANDLE_READ_FIRMWARE_VERSION. -/
def firmware_version (st : KettleState) (read : Nat → List Nat) : Except KErr String :=
  let fw := read _HANDLE_READ_FIRMWARE_VERSION
  if fw = [] then
    Except.error (KErr.missingCharacteristic _HANDLE_READ_FIRMWARE_VERSION st.mac)
  else
    Except.ok (chrJoin fw)

end MiKettle

/-- A concrete instance state shared by the concrete evaluations below:
the constructor defaults of MiKettle (cache_timeout 600, retries 3, the
default token, nothing cached, disconnected, unauthenticated) for a device
with reversed mac 11 22 33 44 55 66 and product id 275. -/
def stDemo : KettleState :=
  { mac := "AA:BB:CC:DD:EE:FF"
    reversedMac := [0x11, 0x22, 0x33, 0x44, 0x55, 0x66]
    productId := 275
    token := MiKettle.generateRandomToken
    cache := none
    cacheTimeout := 600
    lastRead := none
    retries := 3
    connected := false
    authenticated := false }

namespace MiKettle

/-- All entries of a byte table are below 256. -/
def permBound (l : List Nat) : Prop := ∀ x ∈ l, x < 256

theorem getD_lt {l : List Nat} (h : permBound l) (n : Nat) : l.getD n 0 < 256 := by
  rw [List.getD_eq_get?]
  cases hg : l.get? n with
  | none => simp
  | some v => simpa using h v (List.get?_mem hg)

theorem permBound_listSwap {l : List Nat} (h : permBound l) (a b : Nat) :
    permBound (listSwap l a b) := by
  intro x hx
  unfold listSwap at hx
  rcases List.mem_or_eq_of_mem_set hx with hx₂ | rfl
  · rcases List.mem_or_eq_of_mem_set hx₂ with hx₃ | rfl
    · exact h x hx₃
    · exact getD_lt h b
  · exact getD_lt h a

theorem prgaStep_bound {s : Nat × Nat × List Nat} (h : permBound s.2.2) :
    permBound ((prgaStep s).1).2.2 ∧ (prgaStep s).2 < 256 := by
  have hp := permBound_listSwap h ((s.1 + 1) % 256)
    ((s.2.1 + s.2.2.getD ((s.1 + 1) % 256) 0) % 256)
  exact ⟨hp, getD_lt hp _⟩

theorem keystream_length (n : Nat) : ∀ s, (keystream n s).length = n := by
  induction n with
  | zero => intro s; rfl
  | succ m ih => intro s; simp [keystream, ih]

theorem keystream_bound : ∀ (n : Nat) (s : Nat × Nat × List Nat), permBound s.2.2 →
    ∀ k ∈ keystream n s, k < 256 := by
  intro n
  induction n with
  | zero => intro s h k hk; simp [keystream] at hk
  | succ m ih =>
    intro s h k hk
    simp only [keystream, List.mem_cons] at hk
    rcases hk with rfl | hk
    · exact (prgaStep_bound h).2
    · exact ih _ (prgaStep_bound h).1 k hk

theorem cipherCryptAux_eq (input : List Nat) : ∀ s,
    cipherCryptAux input s =
      List.zipWith (fun a k => (a ^^^ k) % 256) input (keystream input.length s) := by
  induction input with
  | nil => intro s; rfl
  | cons a rest ih => intro s; simp [cipherCryptAux, keystream, ih]

theorem cipherCryptAux_length (input : List Nat) (s : Nat × Nat × List Nat) :
    (cipherCryptAux input s).length = input.length := by
  rw [cipherCryptAux_eq]
  simp [keystream_length]

/-- The cipher output always has the length of its input. -/
theorem cipher_length (key input : List Nat) :
    (cipher key input).length = input.length :=
  cipherCryptAux_length input _

theorem permBound_cipherInitAux (key : List Nat) : ∀ fuel perm j i, permBound perm →
    permBound (_cipherInitAux key fuel perm j i) := by
  intro fuel
  induction fuel with
  | zero => intro perm j i h; exact h
  | succ m ih => intro perm j i h; exact ih _ _ _ (permBound_listSwap h _ _)

theorem permBound_cipherInit (key : List Nat) : permBound (_cipherInit key) := by
  apply permBound_cipherInitAux
  intro x hx
  exact List.mem_range.mp hx

theorem zip_xor_invol : ∀ (x ks : List Nat), x.length = ks.length →
    (∀ a ∈ x, a < 256) → (∀ k ∈ ks, k < 256) →
    List.zipWith (fun a k => (a ^^^ k) % 256)
      (List.zipWith (fun a k => (a ^^^ k) % 256) x ks) ks = x := by
  intro x
  induction x with
  | nil => intro ks h hx hk; simp
  | cons a rest ih =>
    intro ks h hx hk
    cases ks with
    | nil => simp at h
    | cons k kt =>
      simp only [List.zipWith_cons_cons]
      have ha : a < 256 := hx a (by simp)
      have hkk : k < 256 := hk k (by simp)
      have h8 : (256 : Nat) = 2 ^ 8 := by norm_num
      have hax : a ^^^ k < 256 := by
        rw [h8] at ha hkk ⊢
        exact Nat.xor_lt_two_pow ha hkk
      have hhead : ((a ^^^ k) % 256 ^^^ k) % 256 = a := by
        rw [Nat.mod_eq_of_lt hax, Nat.xor_assoc, Nat.xor_self, Nat.xor_zero,
          Nat.mod_eq_of_lt ha]
      rw [hhead, ih kt (by simpa using h) (fun b hb => hx b (by simp [hb]))
        (fun b hb => hk b (by simp [hb]))]

theorem crypt_invol (perm : List Nat) (hp : permBound perm) (x : List Nat)
    (hx : ∀ b ∈ x, b < 256) :
    cipherCryptAux (cipherCryptAux x (0, 0, perm)) (0, 0, perm) = x := by
  have hkb : ∀ k ∈ keystream x.length (0, 0, perm), k < 256 :=
    keystream_bound x.length (0, 0, perm) hp
  have hlen : x.length = (keystream x.length (0, 0, perm)).length :=
    (keystream_length x.length _).symm
  rw [cipherCryptAux_eq (cipherCryptAux x (0, 0, perm)), cipherCryptAux_length,
    cipherCryptAux_eq x]
  exact zip_xor_invol x (keystream x.length (0, 0, perm)) hlen hx hkb

theorem get?_eq_getD {l : List Nat} {i : Nat} (h : i < l.length) :
    l.get? i = some (l.getD i 0) := by
  rw [List.getD_eq_get?]
  cases hg : l.get? i with
  | none => rw [List.get?_eq_none] at hg; omega
  | some v => rfl

theorem take_one_drop {l : List Nat} (h : 7 < l.length) :
    (l.drop 7).take 1 = [l.getD 7 0] := by
  rw [List.drop_eq_getElem_cons h, List.getD_eq_getElem l 0 h]
  rfl

theorem bytes_to_int_single (x : Nat) : bytes_to_int [x] = x := by
  simp [bytes_to_int]

end MiKettle

/-- C1: every well-formed 11-byte status frame decodes successfully into the
record given by the section 4.4 offset mapping (action from byte 0, mode
from byte 1, set temperature byte 4, current temperature byte 5, keep warm
type byte 6, current keep warm time from byte 7, extended warm up byte 9,
set keep warm time byte 10); every frame shorter than 11 bytes fails with
the malformed-frame outcome rather than crashing; and decoding is
deterministic. -/
theorem parse_frame (data : List Nat) :
    (MiKettle.wellFormed data = true →
      ∃ s, MiKettle._parse_data data = some s ∧
        MI_ACTION_MAP (data.getD 0 0) = some s.action ∧
        MI_MODE_MAP (data.getD 1 0) = some s.mode ∧
        s.set_temperature = data.getD 4 0 ∧
        s.current_temperature = data.getD 5 0 ∧
        MI_KW_TYPE_MAP (data.getD 6 0) = some s.keep_warm_type ∧
        s.current_keep_warm_time = data.getD 7 0 ∧
        MI_EWU_MAP (data.getD 9 0) = some s.extended_warm_up ∧
        s.set_keep_warm_time = data.getD 10 0) ∧
    (data.length < 11 → MiKettle._parse_data data = none) ∧
    (∀ d₂, d₂ = data → MiKettle._parse_data d₂ = MiKettle._parse_data data) := by
  refine ⟨?_, ?_, ?_⟩
  · intro hwf
    simp only [MiKettle.wellFormed, Bool.and_eq_true, beq_iff_eq] at hwf
    obtain ⟨⟨⟨⟨h11, hact⟩, hmod⟩, hkw⟩, hewu⟩ := hwf
    rw [Option.isSome_iff_exists] at hact hmod hkw hewu
    obtain ⟨av, hav⟩ := hact
    obtain ⟨mv, hmv⟩ := hmod
    obtain ⟨kv, hkv⟩ := hkw
    obtain ⟨ev, hev⟩ := hewu
    have h0 := MiKettle.get?_eq_getD (l := data) (i := 0) (by omega)
    have h1 := MiKettle.get?_eq_getD (l := data) (i := 1) (by omega)
    have h4 := MiKettle.get?_eq_getD (l := data) (i := 4) (by omega)
    have h5 := MiKettle.get?_eq_getD (l := data) (i := 5) (by omega)
    have h6 := MiKettle.get?_eq_getD (l := data) (i := 6) (by omega)
    have h9 := MiKettle.get?_eq_getD (l := data) (i := 9) (by omega)
    have h10 := MiKettle.get?_eq_getD (l := data) (i := 10) (by omega)
    have hparse : MiKettle._parse_data data =
        some { action := av, mode := mv, set_temperature := data.getD 4 0,
               current_temperature := data.getD 5 0, keep_warm_type := kv,
               current_keep_warm_time := data.getD 7 0,
               extended_warm_up := ev, set_keep_warm_time := data.getD 10 0 } := by
      unfold MiKettle._parse_data
      simp only [h0, h1, h4, h5, h6, h9, h10, hav, hmv, hkv, hev, Option.some_bind]
      rw [MiKettle.take_one_drop (by omega), MiKettle.bytes_to_int_single]
    exact ⟨_, hparse, hav, hmv, rfl, rfl, hkv, rfl, hev, rfl⟩
  · intro hlen
    cases hp : MiKettle._parse_data data with
    | none => rfl
    | some s =>
      exfalso
      simp only [MiKettle._parse_data, Option.bind_eq_some] at hp
      obtain ⟨b0, h0, av, ha, b1, h1, mv, hm, b4, h4, b5, h5, b6, h6, kv, hk,
        b9, h9, ev, he, b10, h10, -⟩ := hp
      obtain ⟨hlt, -⟩ := List.get?_eq_some.mp h10
      omega
  · intro d₂ h
    rw [h]

/-- C1 witness: the spec literal frame decodes as the theorem states. -/
theorem parse_frame_witness :
    ∃ s, MiKettle._parse_data [1, 1, 0, 0, 75, 60, 1, 0, 0, 0, 34] = some s ∧
      MI_ACTION_MAP (([1, 1, 0, 0, 75, 60, 1, 0, 0, 0, 34] : List Nat).getD 0 0) = some s.action ∧
      MI_MODE_MAP (([1, 1, 0, 0, 75, 60, 1, 0, 0, 0, 34] : List Nat).getD 1 0) = some s.mode ∧
      s.set_temperature = ([1, 1, 0, 0, 75, 60, 1, 0, 0, 0, 34] : List Nat).getD 4 0 ∧
      s.current_temperature = ([1, 1, 0, 0, 75, 60, 1, 0, 0, 0, 34] : List Nat).getD 5 0 ∧
      MI_KW_TYPE_MAP (([1, 1, 0, 0, 75, 60, 1, 0, 0, 0, 34] : List Nat).getD 6 0) = some s.keep_warm_type ∧
      s.current_keep_warm_time = ([1, 1, 0, 0, 75, 60, 1, 0, 0, 0, 34] : List Nat).getD 7 0 ∧
      MI_EWU_MAP (([1, 1, 0, 0, 75, 60, 1, 0, 0, 0, 34] : List Nat).getD 9 0) = some s.extended_warm_up ∧
      s.set_keep_warm_time = ([1, 1, 0, 0, 75, 60, 1, 0, 0, 0, 34] : List Nat).getD 10 0 :=
  (parse_frame [1, 1, 0, 0, 75, 60, 1, 0, 0, 0, 34]).1 (by decide)

/-- C2: for every key of length 4 or 12 and every byte sequence x,
cipher key (cipher key x) = x.  The schedule is rebuilt from the key inside
each cipher call (cipher is defined as crypt of a fresh _cipherInit key),
so both calls generate the identical keystream and the XOR cancels. -/
theorem cipher_involution (key x : List Nat)
    (hkey : key.length = 4 ∨ key.length = 12)
    (hx : ∀ b ∈ x, b < 256) :
    MiKettle.cipher key (MiKettle.cipher key x) = x :=
  MiKettle.crypt_invol (MiKettle._cipherInit key)
    (MiKettle.permBound_cipherInit key) x hx

/-- C2 witness: the round trip at the concrete 4-byte key 90 CA 85 DE and
input bytes 1, 2, 3. -/
theorem cipher_involution_witness :
    MiKettle.cipher [0x90, 0xCA, 0x85, 0xDE]
      (MiKettle.cipher [0x90, 0xCA, 0x85, 0xDE] [1, 2, 3]) = [1, 2, 3] :=
  cipher_involution [0x90, 0xCA, 0x85, 0xDE] [1, 2, 3] (by decide) (by decide)

/-- C8: for a 6-byte reversed mac and a 16-bit product id, mixA returns
exactly [mac0, mac2, mac5, low8 pid, low8 pid, mac4, mac5, mac1] and mixB
exactly [mac0, mac2, mac5, high8 pid, mac4, mac0, mac5, low8 pid], and both
are pure, so equal inputs give identical outputs. -/
theorem mix_bytes (m0 m1 m2 m3 m4 m5 pid : Nat) (hpid : pid < 65536) :
    MiKettle.mixA [m0, m1, m2, m3, m4, m5] pid =
      [m0, m2, m5, pid % 256, pid % 256, m4, m5, m1] ∧
    MiKettle.mixB [m0, m1, m2, m3, m4, m5] pid =
      [m0, m2, m5, pid / 256, m4, m0, m5, pid % 256] ∧
    (∀ mac₂ pid₂, mac₂ = [m0, m1, m2, m3, m4, m5] → pid₂ = pid →
      MiKettle.mixA mac₂ pid₂ = MiKettle.mixA [m0, m1, m2, m3, m4, m5] pid ∧
      MiKettle.mixB mac₂ pid₂ = MiKettle.mixB [m0, m1, m2, m3, m4, m5] pid) := by
  have hhi : (pid >>> 8) % 256 = pid / 256 := by
    rw [Nat.shiftRight_eq_div_pow]
    norm_num
    omega
  refine ⟨?_, ?_, ?_⟩
  · simp [MiKettle.mixA]
  · simp [MiKettle.mixB, hhi]
  · intro mac₂ pid₂ hm hp
    rw [hm, hp]
    exact ⟨rfl, rfl⟩

/-- C8 witness: the spec literal vectors, reversed mac bytes
11 22 33 44 55 66 and product id 275. -/
theorem mix_bytes_witness :
    MiKettle.mixA [0x11, 0x22, 0x33, 0x44, 0x55, 0x66] 275 =
      [0x11, 0x33, 0x66, 0x13, 0x13, 0x55, 0x66, 0x22] ∧
    MiKettle.mixB [0x11, 0x22, 0x33, 0x44, 0x55, 0x66] 275 =
      [0x11, 0x33, 0x66, 0x01, 0x55, 0x11, 0x66, 0x13] := by
  have h := mix_bytes 0x11 0x22 0x33 0x44 0x55 0x66 275 (by decide)
  exact ⟨h.1.trans (by decide), h.2.1.trans (by decide)⟩

/-- C10: the cipher is deterministic and side-effect free at its interface:
its output length equals its input length and two calls on equal key and
input bytes produce equal outputs; the permutation state is threaded as a
value built inside the call, never shared. -/
theorem cipher_deterministic (key input : List Nat) :
    (MiKettle.cipher key input).length = input.length ∧
    ∀ key₂ input₂, key₂ = key → input₂ = input →
      MiKettle.cipher key₂ input₂ = MiKettle.cipher key input := by
  refine ⟨MiKettle.cipher_length key input, ?_⟩
  intro key₂ input₂ hk hi
  rw [hk, hi]

/-- C10 witness: concrete evaluation at the default key KEY1 and a 3-byte
input. -/
theorem cipher_deterministic_witness :
    (MiKettle.cipher [0x90, 0xCA, 0x85, 0xDE] [1, 2, 3]).length = 3 ∧
    MiKettle.cipher [0x90, 0xCA, 0x85, 0xDE] [1, 2, 3] =
      MiKettle.cipher [0x90, 0xCA, 0x85, 0xDE] [1, 2, 3] :=
  ⟨(cipher_deterministic [0x90, 0xCA, 0x85, 0xDE] [1, 2, 3]).1,
   (cipher_deterministic [0x90, 0xCA, 0x85, 0xDE] [1, 2, 3]).2 _ _ rfl rfl⟩

/-- The status record decoded from the spec literal frame, shared by the
concrete evaluations below. -/
def statusDemo : KettleStatus :=
  { action := "heating", mode := "boil", set_temperature := 75,
    current_temperature := 60, keep_warm_type := "warm up to set temperature",
    current_keep_warm_time := 0, extended_warm_up := "true",
    set_keep_warm_time := 34 }

namespace MiKettle

theorem fill_all_fail (now : Int) (outcomes : Nat → AttemptOutcome)
    (hfail : ∀ j, outcomes j = AttemptOutcome.failure) :
    ∀ fuel st i, 1 ≤ fuel →
      fillCacheGo now outcomes st i fuel =
        ⟨{ st with lastRead := some (now - st.cacheTimeout + 300) }, fuel,
         List.replicate (fuel - 1) 3⟩ := by
  intro fuel
  induction fuel with
  | zero => intro st i h; omega
  | succ m ih =>
    intro st i h
    by_cases hm : m = 0
    · subst hm
      simp [fillCacheGo, hfail i]
    · simp only [fillCacheGo, hfail i, if_neg hm]
      rw [ih st (i + 1) (by omega)]
      obtain ⟨m₂, rfl⟩ : ∃ m₂, m = m₂ + 1 := ⟨m - 1, by omega⟩
      simp [List.replicate_succ]

theorem fill_cache_preserves (now : Int) (outcomes : Nat → AttemptOutcome)
    (hnd : ∀ j d s, outcomes j = AttemptOutcome.delivered (some d) →
      _parse_data d ≠ some s) :
    ∀ fuel st i, (fillCacheGo now outcomes st i fuel).state.cache = st.cache := by
  intro fuel
  induction fuel with
  | zero => intro st i; rfl
  | succ m ih =>
    intro st i
    cases ho : outcomes i with
    | transportFault =>
      cases hc : st.connected <;> simp [fillCacheGo, ho, hc, ih]
    | failure =>
      by_cases hm : m = 0 <;> simp [fillCacheGo, ho, hm, ih]
    | quiet =>
      simp [fillCacheGo, ho]
    | delivered data =>
      cases data with
      | none =>
        simp [fillCacheGo, ho, handleNotification, _HANDLE_STATUS, _HANDLE_AUTH]
      | some d =>
        cases hp : _parse_data d with
        | some s => exact absurd hp (hnd i d s ho)
        | none =>
          by_cases hm : m = 0 <;>
            simp [fillCacheGo, ho, handleNotification, _HANDLE_STATUS,
              _HANDLE_AUTH, hp, hm, ih]

theorem serveCache_fst (r : FillResult) : (serveCache r).1 = r.state := by
  unfold serveCache
  split <;> rfl

theorem serveCache_attempts (r : FillResult) : (serveCache r).2.1 = r.attempts := by
  unfold serveCache
  split <;> rfl

theorem serveCache_serves {r : FillResult} {s : KettleStatus}
    (h : r.state.cache = some s) : (serveCache r).2.2 = Except.ok s := by
  unfold serveCache
  rw [h]

theorem parameter_value_fst (st : KettleState) (now : Int)
    (outcomes : Nat → AttemptOutcome) (rc : Bool) :
    (parameter_value st now outcomes rc).1 =
      (if isStale st now rc then fill_cache st now outcomes
       else ⟨st, 0, []⟩).state := by
  unfold parameter_value
  exact serveCache_fst _

theorem parameter_value_serves {st : KettleState} {now : Int}
    {outcomes : Nat → AttemptOutcome} {rc : Bool} {s : KettleStatus}
    (h : (if isStale st now rc then fill_cache st now outcomes
          else ⟨st, 0, []⟩).state.cache = some s) :
    (parameter_value st now outcomes rc).2.2 = Except.ok s := by
  unfold parameter_value
  exact serveCache_serves h

/-- One unfolding of the retry loop at a transport-internal fault. -/
theorem fillCacheGo_transport_step (now : Int) (outcomes : Nat → AttemptOutcome)
    (st : KettleState) (i fuel : Nat)
    (h : outcomes i = AttemptOutcome.transportFault) :
    fillCacheGo now outcomes st i (fuel + 1) =
      ⟨(fillCacheGo now outcomes
          (if st.connected then { st with connected := false, authenticated := false }
           else st) (i + 1) fuel).state,
       (fillCacheGo now outcomes
          (if st.connected then { st with connected := false, authenticated := false }
           else st) (i + 1) fuel).attempts + 1,
       (fillCacheGo now outcomes
          (if st.connected then { st with connected := false, authenticated := false }
           else st) (i + 1) fuel).sleeps⟩ := by
  simp [fillCacheGo, h]

/-- One unfolding of the retry loop at a silently completed wait: the code
breaks out of the loop right after waitForNotifications regardless of its
return value, so a timeout (False, nothing delivered) ends the cycle after
that attempt with no sleep, no backoff stamp and no cache change. -/
theorem fillCacheGo_quiet_step (now : Int) (outcomes : Nat → AttemptOutcome)
    (st : KettleState) (i fuel : Nat)
    (h : outcomes i = AttemptOutcome.quiet) :
    fillCacheGo now outcomes st i (fuel + 1) =
      ⟨{ st with connected := true, authenticated := true }, 1, []⟩ := by
  simp [fillCacheGo, h]

end MiKettle

/-- C3: when the device response notification fails the double-decipher
check against the session token, auth fails with the authentication error
and no authenticated state is ever produced (the flag is only set after
the handler returns without raising). -/
theorem auth_mismatch_rejected (st : KettleState) (now : Int) (d : List Nat)
    (hun : st.authenticated = false)
    (hne : MiKettle.cipher (MiKettle.mixB st.reversedMac st.productId)
        (MiKettle.cipher (MiKettle.mixA st.reversedMac st.productId) d) ≠ st.token) :
    MiKettle.auth st now (some d) = Except.error KErr.authenticationFailed ∧
    ∀ st₂, MiKettle.auth st now (some d) ≠ Except.ok st₂ := by
  have h : MiKettle.auth st now (some d) = Except.error KErr.authenticationFailed := by
    unfold MiKettle.auth MiKettle.handleNotification
    rw [hun]
    simp [hne]
  refine ⟨h, fun st₂ hcon => ?_⟩
  rw [h] at hcon
  exact Except.noConfusion hcon

/-- C3 witness: a 1-byte crafted response cannot pass the check against the
12-byte default token (the cipher preserves length), so auth at the demo
state fails with the authentication error. -/
theorem auth_mismatch_rejected_witness :
    MiKettle.auth stDemo 0 (some [0]) = Except.error KErr.authenticationFailed := by
  refine (auth_mismatch_rejected stDemo 0 [0] rfl ?_).1
  intro hEq
  have hl := congrArg List.length hEq
  rw [MiKettle.cipher_length, MiKettle.cipher_length] at hl
  exact absurd hl (by decide)

/-- C4 counterexample: with retries 3 and every attempt failing with a
timeout (waitForNotifications returns with nothing delivered), the code
hits the unconditional break after the wait: the cycle makes exactly one
attempt, sleeps never, leaves last_read untouched (no backoff stamp, here
still none), and an immediate subsequent get does perform a new transport
fill attempt.  This refutes the claim, which demands exactly 3 attempts,
two 3-second sleeps, the backoff stamp, and no new attempt on the next
get, for the timeout failure kind it explicitly names. -/
theorem retry_timeout_cex :
    stDemo.retries = 3 ∧
    (MiKettle.fill_cache stDemo 1000 (fun _ => AttemptOutcome.quiet)).attempts = 1 ∧
    (MiKettle.fill_cache stDemo 1000 (fun _ => AttemptOutcome.quiet)).sleeps = [] ∧
    (MiKettle.fill_cache stDemo 1000 (fun _ => AttemptOutcome.quiet)).state.lastRead =
      none ∧
    (MiKettle.parameter_value
        (MiKettle.fill_cache stDemo 1000 (fun _ => AttemptOutcome.quiet)).state 1200
        (fun _ => AttemptOutcome.quiet) true).2.1 = 1 :=
  ⟨rfl, rfl, rfl, rfl, rfl⟩

/-- C4 amended: the claimed exhaustion behaviour holds exactly for attempts
that fail with a raised non-transport exception (decode error,
authentication mismatch, or any other exception inside the try block):
exactly retries attempts occur, a 3-second sleep follows each non-final
failed attempt, last_read is set to now - ttl + 300 seconds, and a
subsequent get within that 5-minute window (with nothing cached) makes no
new fill attempt and fails with the no-data error naming the device.  A
timeout - the wait returning with no notification - is not such a failure:
the loop breaks after that single attempt with no sleep, no backoff stamp
(last_read unchanged) and still no snapshot. -/
theorem retry_exhaustion_amended (st : KettleState) (now now₂ : Int)
    (outcomes outcomesT : Nat → AttemptOutcome)
    (hr : 1 ≤ st.retries)
    (hfail : ∀ j, outcomes j = AttemptOutcome.failure)
    (htime : outcomesT 0 = AttemptOutcome.quiet)
    (hcache : st.cache = none)
    (hwin : now₂ ≤ now + 300) :
    (MiKettle.fill_cache st now outcomes).attempts = st.retries ∧
    (MiKettle.fill_cache st now outcomes).sleeps = List.replicate (st.retries - 1) 3 ∧
    (MiKettle.fill_cache st now outcomes).state.lastRead =
      some (now - st.cacheTimeout + 300) ∧
    (MiKettle.parameter_value (MiKettle.fill_cache st now outcomes).state now₂
        outcomes true).2.1 = 0 ∧
    (MiKettle.parameter_value (MiKettle.fill_cache st now outcomes).state now₂
        outcomes true).2.2 = Except.error (KErr.noData st.mac) ∧
    (MiKettle.fill_cache st now outcomesT).attempts = 1 ∧
    (MiKettle.fill_cache st now outcomesT).sleeps = [] ∧
    (MiKettle.fill_cache st now outcomesT).state.lastRead = st.lastRead ∧
    (MiKettle.fill_cache st now outcomesT).state.cache = none := by
  have hf : MiKettle.fill_cache st now outcomes =
      ⟨{ st with lastRead := some (now - st.cacheTimeout + 300) }, st.retries,
       List.replicate (st.retries - 1) 3⟩ :=
    MiKettle.fill_all_fail now outcomes hfail st.retries st 0 hr
  have hq : MiKettle.fill_cache st now outcomesT =
      ⟨{ st with connected := true, authenticated := true }, 1, []⟩ := by
    have hs : st.retries - 1 + 1 = st.retries := by omega
    calc MiKettle.fill_cache st now outcomesT
        = MiKettle.fillCacheGo now outcomesT st 0 (st.retries - 1 + 1) := by
          unfold MiKettle.fill_cache
          rw [hs]
      _ = _ := MiKettle.fillCacheGo_quiet_step now outcomesT st 0 (st.retries - 1) htime
  rw [hf, hq]
  have hstale : MiKettle.isStale
      { st with lastRead := some (now - st.cacheTimeout + 300) } now₂ true = false := by
    simp [MiKettle.isStale]
    omega
  refine ⟨rfl, rfl, rfl, ?_, ?_, rfl, rfl, rfl, hcache⟩
  all_goals
    simp only [MiKettle.parameter_value]
    rw [hstale]
    simp [MiKettle.serveCache, hcache]

/-- C4 amended witness: the demo state (retries 3, empty cache), one run
with every attempt raising at time 1000 and a second get at time 1200, and
one run whose first attempt times out silently. -/
theorem retry_exhaustion_amended_witness :
    (MiKettle.fill_cache stDemo 1000 (fun _ => AttemptOutcome.failure)).attempts = 3 ∧
    (MiKettle.fill_cache stDemo 1000 (fun _ => AttemptOutcome.failure)).sleeps =
      List.replicate 2 3 ∧
    (MiKettle.fill_cache stDemo 1000 (fun _ => AttemptOutcome.failure)).state.lastRead =
      some 700 ∧
    (MiKettle.parameter_value
        (MiKettle.fill_cache stDemo 1000 (fun _ => AttemptOutcome.failure)).state 1200
        (fun _ => AttemptOutcome.failure) true).2.1 = 0 ∧
    (MiKettle.parameter_value
        (MiKettle.fill_cache stDemo 1000 (fun _ => AttemptOutcome.failure)).state 1200
        (fun _ => AttemptOutcome.failure) true).2.2 =
      Except.error (KErr.noData "AA:BB:CC:DD:EE:FF") ∧
    (MiKettle.fill_cache stDemo 1000 (fun _ => AttemptOutcome.quiet)).attempts = 1 ∧
    (MiKettle.fill_cache stDemo 1000 (fun _ => AttemptOutcome.quiet)).sleeps = [] ∧
    (MiKettle.fill_cache stDemo 1000 (fun _ => AttemptOutcome.quiet)).state.lastRead =
      none ∧
    (MiKettle.fill_cache stDemo 1000 (fun _ => AttemptOutcome.quiet)).state.cache =
      none :=
  retry_exhaustion_amended stDemo 1000 1200 (fun _ => AttemptOutcome.failure)
    (fun _ => AttemptOutcome.quiet) (by decide) (fun j => rfl) rfl rfl (by decide)

/-- C5: a transport-internal fault on an attempt disconnects, resets the
authenticated flag, keeps last_read (no backoff stamp) and the cache, and
proceeds directly to the next attempt with no sleep recorded. -/
theorem transport_fastpath (st : KettleState) (now : Int)
    (outcomes : Nat → AttemptOutcome)
    (h0 : outcomes 0 = AttemptOutcome.transportFault)
    (hr : 1 ≤ st.retries)
    (hinv : st.connected = false → st.authenticated = false) :
    ∃ st₂, st₂.connected = false ∧ st₂.authenticated = false ∧
      st₂.lastRead = st.lastRead ∧ st₂.cache = st.cache ∧
      MiKettle.fill_cache st now outcomes =
        ⟨(MiKettle.fillCacheGo now outcomes st₂ 1 (st.retries - 1)).state,
         (MiKettle.fillCacheGo now outcomes st₂ 1 (st.retries - 1)).attempts + 1,
         (MiKettle.fillCacheGo now outcomes st₂ 1 (st.retries - 1)).sleeps⟩ := by
  refine ⟨if st.connected then { st with connected := false, authenticated := false }
    else st, ?_, ?_, ?_, ?_, ?_⟩
  · cases hc : st.connected <;> simp [hc]
  · cases hc : st.connected <;> simp [hc, hinv]
  · cases hc : st.connected <;> simp [hc]
  · cases hc : st.connected <;> simp [hc]
  · have hs : st.retries - 1 + 1 = st.retries := by omega
    calc MiKettle.fill_cache st now outcomes
        = MiKettle.fillCacheGo now outcomes st 0 (st.retries - 1 + 1) := by
          unfold MiKettle.fill_cache
          rw [hs]
      _ = _ := MiKettle.fillCacheGo_transport_step now outcomes st 0 (st.retries - 1) h0

/-- C5 witness: a connected demo state whose first attempt raises the
transport-internal error. -/
theorem transport_fastpath_witness :
    ∃ st₂, st₂.connected = false ∧ st₂.authenticated = false ∧
      st₂.lastRead = { stDemo with connected := true }.lastRead ∧
      st₂.cache = { stDemo with connected := true }.cache ∧
      MiKettle.fill_cache { stDemo with connected := true } 0
          (fun _ => AttemptOutcome.transportFault) =
        ⟨(MiKettle.fillCacheGo 0 (fun _ => AttemptOutcome.transportFault) st₂ 1 2).state,
         (MiKettle.fillCacheGo 0 (fun _ => AttemptOutcome.transportFault) st₂ 1 2).attempts + 1,
         (MiKettle.fillCacheGo 0 (fun _ => AttemptOutcome.transportFault) st₂ 1 2).sleeps⟩ :=
  transport_fastpath { stDemo with connected := true } 0
    (fun _ => AttemptOutcome.transportFault) rfl (by decide)
    (fun h => Bool.noConfusion h)

/-- C6 counterexample: starting from the demo state, a successful fill at
time 1000 (a delivered well-formed frame) populates the cache; a later
fill cycle at time 100000 whose three attempts all fail leaves the
snapshot in place and parameter_value serves it, although the most recent
fill attempt did not succeed.  This refutes the claim that the snapshot is
present only if the most recent fill attempt succeeded. -/
theorem cache_retention_cex :
    (MiKettle.parameter_value
        (MiKettle.parameter_value stDemo 1000
          (fun _ => AttemptOutcome.delivered (some [1, 1, 0, 0, 75, 60, 1, 0, 0, 0, 34]))
          true).1
        100000 (fun _ => AttemptOutcome.failure) true).2.1 = 3 ∧
    (MiKettle.parameter_value
        (MiKettle.parameter_value stDemo 1000
          (fun _ => AttemptOutcome.delivered (some [1, 1, 0, 0, 75, 60, 1, 0, 0, 0, 34]))
          true).1
        100000 (fun _ => AttemptOutcome.failure) true).1.cache.isSome = true ∧
    (MiKettle.parameter_value
        (MiKettle.parameter_value stDemo 1000
          (fun _ => AttemptOutcome.delivered (some [1, 1, 0, 0, 75, 60, 1, 0, 0, 0, 34]))
          true).1
        100000 (fun _ => AttemptOutcome.failure) true).2.2 = Except.ok statusDemo :=
  ⟨rfl, rfl, rfl⟩

/-- C6 amended: the cached snapshot survives any fill cycle in which no
status frame is decoded (failures do not clear the cache), and a get on a
state holding a snapshot serves that snapshot even when the fill cycle it
triggers decodes nothing. -/
theorem snapshot_retained (st : KettleState) (now : Int)
    (outcomes : Nat → AttemptOutcome)
    (hnd : ∀ j d s, outcomes j = AttemptOutcome.delivered (some d) →
      MiKettle._parse_data d ≠ some s) :
    (MiKettle.fill_cache st now outcomes).state.cache = st.cache ∧
    (MiKettle.parameter_value st now outcomes true).1.cache = st.cache ∧
    (∀ s, st.cache = some s →
      (MiKettle.parameter_value st now outcomes true).2.2 = Except.ok s) := by
  have h1 : (MiKettle.fill_cache st now outcomes).state.cache = st.cache :=
    MiKettle.fill_cache_preserves now outcomes hnd st.retries st 0
  have hbr : (if MiKettle.isStale st now true then MiKettle.fill_cache st now outcomes
      else ⟨st, 0, []⟩).state.cache = st.cache := by
    cases hs : MiKettle.isStale st now true <;> simp [hs, h1]
  refine ⟨h1, ?_, ?_⟩
  · rw [MiKettle.parameter_value_fst]
    exact hbr
  · intro s hcs
    exact MiKettle.parameter_value_serves (by rw [hbr, hcs])

/-- C6 amended witness: a cached demo state whose single-attempt fill cycle
fails keeps and serves the snapshot. -/
theorem snapshot_retained_witness :
    (MiKettle.fill_cache { stDemo with cache := some statusDemo } 0
        (fun _ => AttemptOutcome.failure)).state.cache =
      { stDemo with cache := some statusDemo }.cache ∧
    (MiKettle.parameter_value { stDemo with cache := some statusDemo } 0
        (fun _ => AttemptOutcome.failure) true).1.cache =
      { stDemo with cache := some statusDemo }.cache ∧
    (∀ s, { stDemo with cache := some statusDemo }.cache = some s →
      (MiKettle.parameter_value { stDemo with cache := some statusDemo } 0
          (fun _ => AttemptOutcome.failure) true).2.2 = Except.ok s) :=
  snapshot_retained { stDemo with cache := some statusDemo } 0
    (fun _ => AttemptOutcome.failure) (fun j d s h => nomatch h)

/-- C7 counterexample: a None payload on the status handle is silently
ignored by the handler: the state is returned unchanged with last_read
still none, not stamped with the backoff value now - ttl + 300 that the
claim requires. -/
theorem null_payload_cex :
    MiKettle.handleNotification stDemo 5 _HANDLE_STATUS none = Except.ok stDemo ∧
    stDemo.lastRead = none ∧
    MiKettle.handleNotification stDemo 5 _HANDLE_STATUS none ≠
      Except.ok { stDemo with lastRead := some (5 - stDemo.cacheTimeout + 300) } := by
  refine ⟨rfl, rfl, ?_⟩
  intro h
  have h₃ := congrArg KettleState.lastRead (Except.ok.inj h)
  simp [stDemo] at h₃

/-- C7 amended: a null payload on the status handle returns with no state
change at all (no snapshot update, no backoff stamp); an empty but non-null
payload is a decode failure that propagates out of the handler, and the
fill cycle that receives it on its final attempt applies the section 4.6
backoff, setting last_read to now - ttl + 300 without touching the
snapshot. -/
theorem null_empty_backoff (st : KettleState) (now : Int)
    (outcomes : Nat → AttemptOutcome)
    (h0 : outcomes 0 = AttemptOutcome.delivered (some []))
    (h1 : st.retries = 1) :
    MiKettle.handleNotification st now _HANDLE_STATUS none = Except.ok st ∧
    MiKettle.handleNotification st now _HANDLE_STATUS (some []) =
      Except.error KErr.malformedFrame ∧
    (MiKettle.fill_cache st now outcomes).state.cache = st.cache ∧
    (MiKettle.fill_cache st now outcomes).state.lastRead =
      some (now - st.cacheTimeout + 300) := by
  have hh : ∀ st₂ : KettleState, MiKettle.handleNotification st₂ now
      _HANDLE_STATUS (some []) = Except.error KErr.malformedFrame := fun st₂ => rfl
  refine ⟨rfl, rfl, ?_, ?_⟩ <;>
    simp [MiKettle.fill_cache, h1, MiKettle.fillCacheGo, h0, hh]

/-- C7 amended witness: the demo state with a single retry receiving an
empty payload. -/
theorem null_empty_backoff_witness :
    MiKettle.handleNotification { stDemo with retries := 1 } 7 _HANDLE_STATUS none =
      Except.ok { stDemo with retries := 1 } ∧
    MiKettle.handleNotification { stDemo with retries := 1 } 7 _HANDLE_STATUS (some []) =
      Except.error KErr.malformedFrame ∧
    (MiKettle.fill_cache { stDemo with retries := 1 } 7
        (fun _ => AttemptOutcome.delivered (some []))).state.cache =
      { stDemo with retries := 1 }.cache ∧
    (MiKettle.fill_cache { stDemo with retries := 1 } 7
        (fun _ => AttemptOutcome.delivered (some []))).state.lastRead =
      some (7 - { stDemo with retries := 1 }.cacheTimeout + 300) :=
  null_empty_backoff { stDemo with retries := 1 } 7
    (fun _ => AttemptOutcome.delivered (some [])) rfl rfl

/-- C9: evaluation at the failing input.  When the characteristic read
returns empty bytes, name and firmware_version raise errors naming the
handle each read (20 and 26); manufacturer reads handle 18
(_HANDLE_READ_MANU) but its error names handle 20 (_HANDLE_READ_NAME),
reproducing the slip at line 121 of the source, so the error does not name
the handle that was read. -/
theorem manufacturer_wrong_handle :
    MiKettle.manufacturer stDemo (fun _ => []) =
      Except.error (KErr.missingCharacteristic _HANDLE_READ_NAME stDemo.mac) ∧
    _HANDLE_READ_MANU = 18 ∧ _HANDLE_READ_NAME = 20 ∧
    _HANDLE_READ_MANU ≠ _HANDLE_READ_NAME ∧
    MiKettle.name stDemo (fun _ => []) =
      Except.error (KErr.missingCharacteristic _HANDLE_READ_NAME stDemo.mac) ∧
    MiKettle.firmware_version stDemo (fun _ => []) =
      Except.error
        (KErr.missingCharacteristic _HANDLE_READ_FIRMWARE_VERSION stDemo.mac) :=
  ⟨rfl, rfl, rfl, by decide, rfl, rfl⟩
